import Mathlib

/-!
Shallow embedding of the micro:bit DAL button driver
(`source/drivers/MicroBitButton.cpp`, `inc/drivers/MicroBitButton.h`).

The driver is a debounced digital-input state machine: a leaky integrator
(`sigma`) with hysteresis thresholds drives a pressed flag held in the
`status` bit field, and classified events (DOWN, UP, CLICK, LONG_CLICK,
HOLD) are emitted from the periodic `systemTick` callback.

Modelling choices:
* `status` is modelled by its two used bits, `MICROBIT_BUTTON_STATE`
  (`pressedFlag`) and `MICROBIT_BUTTON_STATE_HOLD_TRIGGERED`
  (`holdTriggeredFlag`); the assignment `status = 0` on the release edge
  clears both.
* `sigma` is a `uint8_t` guarded so that it never leaves `[0, 255]`
  (increment only below 12, decrement only above 0), so plain `Nat`
  models it exactly.
* Timestamps are C `unsigned long` values; the subtraction
  `system_timer_current_time() - downStartTime` wraps modulo `2 ^ 64`,
  modelled by `usub`.
* Constructing a `MicroBitEvent` is observable only as an emission, so a
  tick returns the list of emitted event kinds in emission order.
* The raw input `rawAsserted` stands for the pin reading low (`!pin` in
  the source), i.e. the button touched/pressed.
-/

namespace MicroBitDAL

/-- Event configuration of a button: `MICROBIT_BUTTON_SIMPLE_EVENTS` or
`MICROBIT_BUTTON_ALL_EVENTS`. -/
inductive MicroBitButtonEventConfiguration where
  | simpleEvents
  | allEvents
deriving DecidableEq, Repr

/-- The kinds of events the tick algorithm can emit
(`MICROBIT_BUTTON_EVT_DOWN/UP/CLICK/LONG_CLICK/HOLD`). `DOUBLE_CLICK`
is defined in the header but never emitted by this slice. -/
inductive ButtonEventKind where
  | down
  | up
  | click
  | longClick
  | hold
deriving DecidableEq, Repr

/-- The mutable state of one `MicroBitButton`. -/
structure ButtonState where
  sigma : Nat
  pressedFlag : Bool
  holdTriggeredFlag : Bool
  downStartTime : Nat
  eventConfiguration : MicroBitButtonEventConfiguration
deriving DecidableEq, Repr

def MICROBIT_BUTTON_SIGMA_MIN : Nat := 0
def MICROBIT_BUTTON_SIGMA_MAX : Nat := 12
def MICROBIT_BUTTON_SIGMA_THRESH_HI : Nat := 8
def MICROBIT_BUTTON_SIGMA_THRESH_LO : Nat := 2
def MICROBIT_BUTTON_LONG_CLICK_TIME : Nat := 1000
def MICROBIT_BUTTON_HOLD_TIME : Nat := 1500

/-- Size of the C `unsigned long` type used for timestamps. -/
def ULONG_CARD : Nat := 2 ^ 64

/-- Wrapping subtraction of `unsigned long` values: `a - b` in C. -/
def usub (a b : Nat) : Nat :=
  (a + (ULONG_CARD - b % ULONG_CARD)) % ULONG_CARD

/-- The integration step at the top of `systemTick`: increment `sigma`
when the raw input is asserted (pin low) unless at `SIGMA_MAX`, else
decrement unless at `SIGMA_MIN`. -/
def integrate (sigma : Nat) (rawAsserted : Bool) : Nat :=
  if rawAsserted then
    if sigma < MICROBIT_BUTTON_SIGMA_MAX then sigma + 1 else sigma
  else
    if MICROBIT_BUTTON_SIGMA_MIN < sigma then sigma - 1 else sigma

/-- Guard of the off→on block: `sigma > SIGMA_THRESH_HI && !(status & STATE)`,
evaluated on the freshly integrated `sigma`. -/
def pressEdge (s : ButtonState) (rawAsserted : Bool) : Bool :=
  decide (MICROBIT_BUTTON_SIGMA_THRESH_HI < integrate s.sigma rawAsserted) &&
    !s.pressedFlag

/-- The `STATE` bit after the off→on block. -/
def pressedAfterDown (s : ButtonState) (rawAsserted : Bool) : Bool :=
  if pressEdge s rawAsserted then true else s.pressedFlag

/-- `downStartTime` after the off→on block (set to `now` on a press edge). -/
def startAfterDown (s : ButtonState) (rawAsserted : Bool) (now : Nat) : Nat :=
  if pressEdge s rawAsserted then now else s.downStartTime

/-- Guard of the on→off block: `sigma < SIGMA_THRESH_LO && (status & STATE)`,
evaluated after the off→on block. -/
def releaseEdge (s : ButtonState) (rawAsserted : Bool) : Bool :=
  decide (integrate s.sigma rawAsserted < MICROBIT_BUTTON_SIGMA_THRESH_LO) &&
    pressedAfterDown s rawAsserted

/-- The `STATE` bit after the on→off block (`status = 0` clears it). -/
def pressedAfterUp (s : ButtonState) (rawAsserted : Bool) : Bool :=
  if releaseEdge s rawAsserted then false else pressedAfterDown s rawAsserted

/-- The `HOLD_TRIGGERED` bit after the on→off block (`status = 0` clears it). -/
def holdAfterUp (s : ButtonState) (rawAsserted : Bool) : Bool :=
  if releaseEdge s rawAsserted then false else s.holdTriggeredFlag

/-- Guard of the hold block:
`(status & STATE) && !(status & STATE_HOLD_TRIGGERED) && now - downStartTime >= HOLD_TIME`,
evaluated after both edge blocks. -/
def holdFires (s : ButtonState) (rawAsserted : Bool) (now : Nat) : Bool :=
  pressedAfterUp s rawAsserted && !holdAfterUp s rawAsserted &&
    decide (MICROBIT_BUTTON_HOLD_TIME ≤ usub now (startAfterDown s rawAsserted now))

/-- The events emitted by the on→off block: `UP`, then in `ALL_EVENTS`
mode exactly one of `LONG_CLICK` (duration `>= LONG_CLICK_TIME`) or
`CLICK`. -/
def releaseEvents (s : ButtonState) (rawAsserted : Bool) (now : Nat) :
    List ButtonEventKind :=
  ButtonEventKind.up ::
    (if s.eventConfiguration = MicroBitButtonEventConfiguration.allEvents then
      if MICROBIT_BUTTON_LONG_CLICK_TIME ≤ usub now (startAfterDown s rawAsserted now) then
        [ButtonEventKind.longClick]
      else
        [ButtonEventKind.click]
    else [])

/-- One invocation of `MicroBitButton::systemTick`, given the raw pin
reading (`rawAsserted` = pin pulled low) and the current system time.
Returns the new state and the events emitted, in emission order. -/
def systemTick (s : ButtonState) (rawAsserted : Bool) (now : Nat) :
    ButtonState × List ButtonEventKind :=
  ({ s with
      sigma := integrate s.sigma rawAsserted,
      pressedFlag := pressedAfterUp s rawAsserted,
      holdTriggeredFlag :=
        if holdFires s rawAsserted now then true else holdAfterUp s rawAsserted,
      downStartTime := startAfterDown s rawAsserted now },
   (if pressEdge s rawAsserted then [ButtonEventKind.down] else []) ++
   (if releaseEdge s rawAsserted then releaseEvents s rawAsserted now else []) ++
   (if holdFires s rawAsserted now then [ButtonEventKind.hold] else []))

/-- `MicroBitButton::isPressed`: 1 if the `STATE` bit is set, 0 otherwise. -/
def isPressed (s : ButtonState) : Nat :=
  if s.pressedFlag then 1 else 0

/-- `MicroBitButton::setEventConfiguration`. -/
def setEventConfiguration (s : ButtonState)
    (config : MicroBitButtonEventConfiguration) : ButtonState :=
  { s with eventConfiguration := config }

/-- The state after construction. The constructor in the source sets
`downStartTime = 0` and `sigma = 0` and stores the event configuration.
Modelled from the spec: the `status` bit field lives in the
`MicroBitComponent` base class, which is outside this slice; per the
spec both flags start clear (`pressed = false`, `holdTriggered = false`). -/
def initialButton (config : MicroBitButtonEventConfiguration) : ButtonState :=
  { sigma := 0
    pressedFlag := false
    holdTriggeredFlag := false
    downStartTime := 0
    eventConfiguration := config }

/-- Run a sequence of ticks, each given as (raw pin asserted, current
time); returns the final state and the concatenated event trace. -/
def run : ButtonState → List (Bool × Nat) → ButtonState × List ButtonEventKind
  | s, [] => (s, [])
  | s, (rawAsserted, now) :: rest =>
      ((run (systemTick s rawAsserted now).1 rest).1,
       (systemTick s rawAsserted now).2 ++
         (run (systemTick s rawAsserted now).1 rest).2)

/-- Run a sequence of ticks, returning the per-tick event lists. -/
def runTrace : ButtonState → List (Bool × Nat) → List (List ButtonEventKind)
  | _, [] => []
  | s, (rawAsserted, now) :: rest =>
      (systemTick s rawAsserted now).2 ::
        runTrace (systemTick s rawAsserted now).1 rest

/-- A state is threshold-consistent when `pressed` does not lag `sigma`
across a hysteresis threshold: never `sigma > 8` with `pressed` clear,
and never `sigma < 2` with `pressed` set. -/
def thresholdConsistent (s : ButtonState) : Prop :=
  ¬(MICROBIT_BUTTON_SIGMA_THRESH_HI < s.sigma ∧ s.pressedFlag = false) ∧
  ¬(s.sigma < MICROBIT_BUTTON_SIGMA_THRESH_LO ∧ s.pressedFlag = true)

/-- `true` when no `hold` event occurs strictly before the first `up`
event of the trace. -/
def noHoldBeforeUp : List ButtonEventKind → Bool
  | [] => true
  | e :: rest =>
      if e = ButtonEventKind.up then true
      else if e = ButtonEventKind.hold then false
      else noHoldBeforeUp rest

/-- The tick inputs of the canonical scenario: 20 ticks with the raw
input asserted then 20 deasserted, timestamps advancing 6 ms per tick. -/
def scenarioInputs : List (Bool × Nat) :=
  (List.range 40).map fun i => (decide (i < 20), 6 * (i + 1))

/-- The expected per-tick events of the canonical scenario: `DOWN` on the
9th tick, `UP` then `CLICK` on the 31st, nothing else. -/
def scenarioExpected : List (List ButtonEventKind) :=
  (List.range 40).map fun i =>
    if i = 8 then [ButtonEventKind.down]
    else if i = 30 then [ButtonEventKind.up, ButtonEventKind.click]
    else []

/-- Tick inputs that keep the raw input asserted: nine ticks 6 ms apart
(the integrator reaches 9 and the press edge fires on the last one) and
a tenth tick at 1600 ms, more than `HOLD_TIME` after the press edge. -/
def heldInputs : List (Bool × Nat) :=
  [(true, 6), (true, 12), (true, 18), (true, 24), (true, 30),
   (true, 36), (true, 42), (true, 48), (true, 54), (true, 1600)]

/-! ### Helper lemmas -/

theorem usub_self (a : Nat) : usub a a = 0 := by
  unfold usub
  have h1 : a % ULONG_CARD ≤ a := Nat.mod_le a _
  have h2 : a % ULONG_CARD < ULONG_CARD := Nat.mod_lt _ (by norm_num [ULONG_CARD])
  have h3 : a + (ULONG_CARD - a % ULONG_CARD) = (a - a % ULONG_CARD) + ULONG_CARD := by
    omega
  rw [h3, Nat.add_mod_right]
  have h4 : a - a % ULONG_CARD = ULONG_CARD * (a / ULONG_CARD) := by
    have h5 := Nat.mod_add_div a ULONG_CARD
    omega
  rw [h4, Nat.mul_mod_right]

theorem usub_eq_sub (a b : Nat) (h1 : b ≤ a) (h2 : a < ULONG_CARD) :
    usub a b = a - b := by
  unfold usub
  have hb : b % ULONG_CARD = b := Nat.mod_eq_of_lt (lt_of_le_of_lt h1 h2)
  rw [hb]
  have h3 : a + (ULONG_CARD - b) = (a - b) + ULONG_CARD := by
    have h4 : b ≤ ULONG_CARD := le_of_lt (lt_of_le_of_lt h1 h2)
    omega
  rw [h3, Nat.add_mod_right]
  exact Nat.mod_eq_of_lt (lt_of_le_of_lt (Nat.sub_le a b) h2)

theorem integrate_le (sigma : Nat) (rawAsserted : Bool)
    (h : sigma ≤ MICROBIT_BUTTON_SIGMA_MAX) :
    integrate sigma rawAsserted ≤ MICROBIT_BUTTON_SIGMA_MAX := by
  simp only [integrate, MICROBIT_BUTTON_SIGMA_MAX, MICROBIT_BUTTON_SIGMA_MIN] at *
  split_ifs <;> omega

theorem pressEdge_iff (s : ButtonState) (rawAsserted : Bool) :
    pressEdge s rawAsserted = true ↔
      MICROBIT_BUTTON_SIGMA_THRESH_HI < integrate s.sigma rawAsserted ∧
        s.pressedFlag = false := by
  simp [pressEdge]

theorem releaseEdge_iff (s : ButtonState) (rawAsserted : Bool) :
    releaseEdge s rawAsserted = true ↔
      integrate s.sigma rawAsserted < MICROBIT_BUTTON_SIGMA_THRESH_LO ∧
        s.pressedFlag = true := by
  by_cases hp : pressEdge s rawAsserted = true
  · have h := (pressEdge_iff s rawAsserted).1 hp
    constructor
    · intro hr
      exfalso
      simp only [releaseEdge, pressedAfterDown, hp, if_true, Bool.and_true,
        decide_eq_true_eq] at hr
      have h1 := h.1
      simp only [MICROBIT_BUTTON_SIGMA_THRESH_HI] at h1
      simp only [MICROBIT_BUTTON_SIGMA_THRESH_LO] at hr
      omega
    · intro hr
      rw [h.2] at hr
      exact absurd hr.2 (by simp)
  · simp only [Bool.not_eq_true] at hp
    simp [releaseEdge, pressedAfterDown, hp]

theorem releaseEdge_pressEdge_false (s : ButtonState) (rawAsserted : Bool)
    (h : releaseEdge s rawAsserted = true) : pressEdge s rawAsserted = false := by
  have hr := (releaseEdge_iff s rawAsserted).1 h
  cases hpe : pressEdge s rawAsserted
  · rfl
  · have hp := (pressEdge_iff s rawAsserted).1 hpe
    rw [hr.2] at hp
    exact absurd hp.2 (by simp)

theorem systemTick_sigma (s : ButtonState) (rawAsserted : Bool) (now : Nat) :
    (systemTick s rawAsserted now).1.sigma = integrate s.sigma rawAsserted := rfl

theorem systemTick_pressedFlag (s : ButtonState) (rawAsserted : Bool) (now : Nat) :
    (systemTick s rawAsserted now).1.pressedFlag = pressedAfterUp s rawAsserted := rfl

theorem systemTick_holdFlag (s : ButtonState) (rawAsserted : Bool) (now : Nat) :
    (systemTick s rawAsserted now).1.holdTriggeredFlag =
      (if holdFires s rawAsserted now then true else holdAfterUp s rawAsserted) := rfl

theorem systemTick_start (s : ButtonState) (rawAsserted : Bool) (now : Nat) :
    (systemTick s rawAsserted now).1.downStartTime =
      startAfterDown s rawAsserted now := rfl

theorem systemTick_config (s : ButtonState) (rawAsserted : Bool) (now : Nat) :
    (systemTick s rawAsserted now).1.eventConfiguration = s.eventConfiguration := rfl

theorem systemTick_events_eq (s : ButtonState) (rawAsserted : Bool) (now : Nat) :
    (systemTick s rawAsserted now).2 =
      (if pressEdge s rawAsserted = true then [ButtonEventKind.down] else []) ++
      (if releaseEdge s rawAsserted = true then releaseEvents s rawAsserted now else []) ++
      (if holdFires s rawAsserted now = true then [ButtonEventKind.hold] else []) := rfl

theorem run_cons (s : ButtonState) (rawAsserted : Bool) (now : Nat)
    (rest : List (Bool × Nat)) :
    run s ((rawAsserted, now) :: rest) =
      ((run (systemTick s rawAsserted now).1 rest).1,
       (systemTick s rawAsserted now).2 ++
         (run (systemTick s rawAsserted now).1 rest).2) := rfl

theorem holdFires_iff (s : ButtonState) (rawAsserted : Bool) (now : Nat) :
    holdFires s rawAsserted now = true ↔
      s.pressedFlag = true ∧ s.holdTriggeredFlag = false ∧
        releaseEdge s rawAsserted = false ∧
        MICROBIT_BUTTON_HOLD_TIME ≤ usub now s.downStartTime := by
  by_cases hr : releaseEdge s rawAsserted = true
  · simp [holdFires, pressedAfterUp, hr]
  · simp only [Bool.not_eq_true] at hr
    by_cases hp : pressEdge s rawAsserted = true
    · have h := (pressEdge_iff s rawAsserted).1 hp
      simp [holdFires, pressedAfterUp, holdAfterUp, hr, startAfterDown, hp,
        usub_self, MICROBIT_BUTTON_HOLD_TIME, h.2]
    · simp only [Bool.not_eq_true] at hp
      simp [holdFires, pressedAfterUp, holdAfterUp, pressedAfterDown, hr, hp,
        startAfterDown, and_assoc]

theorem mem_releaseEvents (s : ButtonState) (rawAsserted : Bool) (now : Nat)
    (e : ButtonEventKind) (h : e ∈ releaseEvents s rawAsserted now) :
    e = ButtonEventKind.up ∨ e = ButtonEventKind.click ∨
      e = ButtonEventKind.longClick := by
  simp only [releaseEvents, List.mem_cons] at h
  rcases h with h | h
  · exact Or.inl h
  · split at h
    · split at h <;> simp_all
    · simp at h

theorem hold_mem_iff (s : ButtonState) (rawAsserted : Bool) (now : Nat) :
    ButtonEventKind.hold ∈ (systemTick s rawAsserted now).2 ↔
      holdFires s rawAsserted now = true := by
  rw [systemTick_events_eq]
  simp only [List.mem_append]
  constructor
  · rintro ((h | h) | h)
    · split at h <;> simp_all
    · exfalso
      split at h
      · rcases mem_releaseEvents _ _ _ _ h with h1 | h1 | h1 <;> simp_all
      · simp at h
    · split at h
      · assumption
      · simp at h
  · intro h
    refine Or.inr ?_
    simp [h]

theorem run_sigma_le (inputs : List (Bool × Nat)) :
    ∀ s : ButtonState, s.sigma ≤ MICROBIT_BUTTON_SIGMA_MAX →
      (run s inputs).1.sigma ≤ MICROBIT_BUTTON_SIGMA_MAX := by
  induction inputs with
  | nil => exact fun s h => h
  | cons x rest ih =>
      intro s h
      obtain ⟨rawAsserted, now⟩ := x
      rw [run_cons]
      exact ih _ (by rw [systemTick_sigma]; exact integrate_le _ _ h)

theorem thresholdConsistent_after_tick (s : ButtonState) (rawAsserted : Bool)
    (now : Nat) : thresholdConsistent (systemTick s rawAsserted now).1 := by
  constructor
  · rintro ⟨h1, h2⟩
    rw [systemTick_sigma] at h1
    rw [systemTick_pressedFlag] at h2
    by_cases hr : releaseEdge s rawAsserted = true
    · have h3 := ((releaseEdge_iff s rawAsserted).1 hr).1
      simp only [MICROBIT_BUTTON_SIGMA_THRESH_HI] at h1
      simp only [MICROBIT_BUTTON_SIGMA_THRESH_LO] at h3
      omega
    · simp only [Bool.not_eq_true] at hr
      simp only [pressedAfterUp, hr, Bool.false_eq_true, if_false,
        pressedAfterDown] at h2
      split at h2
      · exact absurd h2 (by simp)
      · rename_i hp
        simp only [Bool.not_eq_true] at hp
        have h4 : pressEdge s rawAsserted = true :=
          (pressEdge_iff s rawAsserted).2 ⟨h1, h2⟩
        rw [hp] at h4
        exact absurd h4 (by simp)
  · rintro ⟨h1, h2⟩
    rw [systemTick_sigma] at h1
    rw [systemTick_pressedFlag] at h2
    by_cases hr : releaseEdge s rawAsserted = true
    · simp [pressedAfterUp, hr] at h2
    · simp only [Bool.not_eq_true] at hr
      simp only [pressedAfterUp, hr, Bool.false_eq_true, if_false,
        pressedAfterDown] at h2
      split at h2
      · rename_i hp
        have h3 := ((pressEdge_iff s rawAsserted).1 hp).1
        simp only [MICROBIT_BUTTON_SIGMA_THRESH_HI] at h3
        simp only [MICROBIT_BUTTON_SIGMA_THRESH_LO] at h1
        omega
      · have h4 : releaseEdge s rawAsserted = true :=
          (releaseEdge_iff s rawAsserted).2 ⟨h1, h2⟩
        rw [hr] at h4
        exact absurd h4 (by simp)

theorem thresholdConsistent_run (inputs : List (Bool × Nat)) :
    ∀ s : ButtonState, thresholdConsistent s →
      thresholdConsistent (run s inputs).1 := by
  induction inputs with
  | nil => exact fun s h => h
  | cons x rest ih =>
      intro s h
      obtain ⟨rawAsserted, now⟩ := x
      rw [run_cons]
      exact ih _ (thresholdConsistent_after_tick s rawAsserted now)

/-! ### Claim theorems -/

/-- Claim C1: from the initial state, after every tick sequence the
integrator stays within `[SIGMA_MIN, SIGMA_MAX] = [0, 12]`; a tick with
the raw input asserted increments it by 1 unless it is already 12, and a
tick with it deasserted decrements it by 1 unless it is already 0. -/
theorem integrator_clamped :
    (∀ (config : MicroBitButtonEventConfiguration) (inputs : List (Bool × Nat)),
        MICROBIT_BUTTON_SIGMA_MIN ≤ (run (initialButton config) inputs).1.sigma ∧
        (run (initialButton config) inputs).1.sigma ≤ MICROBIT_BUTTON_SIGMA_MAX) ∧
    (∀ (s : ButtonState) (now : Nat), s.sigma ≤ MICROBIT_BUTTON_SIGMA_MAX →
        (systemTick s true now).1.sigma =
          (if s.sigma = MICROBIT_BUTTON_SIGMA_MAX then s.sigma else s.sigma + 1) ∧
        (systemTick s false now).1.sigma =
          (if s.sigma = MICROBIT_BUTTON_SIGMA_MIN then s.sigma else s.sigma - 1)) := by
  constructor
  · intro config inputs
    refine ⟨?_, run_sigma_le inputs _ (by simp [initialButton, MICROBIT_BUTTON_SIGMA_MAX])⟩
    simp [MICROBIT_BUTTON_SIGMA_MIN]
  · intro s now h
    constructor <;>
      · rw [systemTick_sigma]
        simp only [integrate, MICROBIT_BUTTON_SIGMA_MAX,
          MICROBIT_BUTTON_SIGMA_MIN] at *
        norm_num
        split_ifs <;> omega

/-- Witness for C1 at the initial state and one asserted tick. -/
theorem integrator_clamped_witness :
    (systemTick (initialButton MicroBitButtonEventConfiguration.allEvents) true 0).1.sigma =
      (if (initialButton MicroBitButtonEventConfiguration.allEvents).sigma =
          MICROBIT_BUTTON_SIGMA_MAX
       then (initialButton MicroBitButtonEventConfiguration.allEvents).sigma
       else (initialButton MicroBitButtonEventConfiguration.allEvents).sigma + 1) :=
  (integrator_clamped.2 (initialButton MicroBitButtonEventConfiguration.allEvents) 0
    (by decide)).1

/-- Claim C9: after any nonempty tick sequence from the initial state the
state is never threshold-inconsistent: never `sigma > 8` with the
pressed flag clear, and never `sigma < 2` with it set. -/
theorem no_threshold_lag (config : MicroBitButtonEventConfiguration)
    (inputs : List (Bool × Nat)) (h : inputs ≠ []) :
    thresholdConsistent (run (initialButton config) inputs).1 := by
  cases inputs with
  | nil => exact absurd rfl h
  | cons x rest =>
      obtain ⟨rawAsserted, now⟩ := x
      rw [run_cons]
      exact thresholdConsistent_run rest _
        (thresholdConsistent_after_tick (initialButton config) rawAsserted now)

/-- Witness for C9 on a single asserted tick. -/
theorem no_threshold_lag_witness :
    thresholdConsistent
      (run (initialButton MicroBitButtonEventConfiguration.allEvents) [(true, 0)]).1 :=
  no_threshold_lag MicroBitButtonEventConfiguration.allEvents [(true, 0)] (by decide)

/-- Claim C10: `downStartTime` is written only at construction (to 0) and
on a press-edge tick (to `now`); any tick without a press edge leaves it
unchanged. -/
theorem downStartTime_frame :
    (∀ config : MicroBitButtonEventConfiguration,
        (initialButton config).downStartTime = 0) ∧
    (∀ (s : ButtonState) (rawAsserted : Bool) (now : Nat),
        pressEdge s rawAsserted = true →
        (systemTick s rawAsserted now).1.downStartTime = now) ∧
    (∀ (s : ButtonState) (rawAsserted : Bool) (now : Nat),
        pressEdge s rawAsserted = false →
        (systemTick s rawAsserted now).1.downStartTime = s.downStartTime) := by
  refine ⟨fun config => rfl, ?_, ?_⟩
  · intro s rawAsserted now h
    rw [systemTick_start]
    simp [startAfterDown, h]
  · intro s rawAsserted now h
    rw [systemTick_start]
    simp [startAfterDown, h]

/-- Witness for C10: a press-edge tick stamps `now`, a non-edge tick
leaves `downStartTime` at its old value. -/
theorem downStartTime_frame_witness :
    (systemTick
      { sigma := 8, pressedFlag := false, holdTriggeredFlag := false,
        downStartTime := 3, eventConfiguration := MicroBitButtonEventConfiguration.allEvents }
      true 77).1.downStartTime = 77 ∧
    (systemTick
      { sigma := 8, pressedFlag := false, holdTriggeredFlag := false,
        downStartTime := 3, eventConfiguration := MicroBitButtonEventConfiguration.allEvents }
      false 77).1.downStartTime = 3 :=
  ⟨downStartTime_frame.2.1 _ true 77 (by decide),
   downStartTime_frame.2.2 _ false 77 (by decide)⟩

/-- Claim C7: in a single tick at most one of the press edge and the
release edge fires, and a hold never fires in the same tick as either
edge: a press edge stamps `downStartTime = now` so the elapsed time is
0, and a release edge clears the pressed flag before the hold guard is
evaluated. -/
theorem edge_and_hold_exclusive :
    (∀ (s : ButtonState) (rawAsserted : Bool),
        ¬(pressEdge s rawAsserted = true ∧ releaseEdge s rawAsserted = true)) ∧
    (∀ (s : ButtonState) (rawAsserted : Bool) (now : Nat),
        pressEdge s rawAsserted = true →
        ButtonEventKind.hold ∉ (systemTick s rawAsserted now).2) ∧
    (∀ (s : ButtonState) (rawAsserted : Bool) (now : Nat),
        releaseEdge s rawAsserted = true →
        ButtonEventKind.hold ∉ (systemTick s rawAsserted now).2) := by
  refine ⟨?_, ?_, ?_⟩
  · rintro s rawAsserted ⟨h1, h2⟩
    have hp := (pressEdge_iff s rawAsserted).1 h1
    have hr := (releaseEdge_iff s rawAsserted).1 h2
    have h3 := hp.1
    have h4 := hr.1
    simp only [MICROBIT_BUTTON_SIGMA_THRESH_HI] at h3
    simp only [MICROBIT_BUTTON_SIGMA_THRESH_LO] at h4
    omega
  · intro s rawAsserted now h hmem
    have hf := (hold_mem_iff s rawAsserted now).1 hmem
    have h2 := (holdFires_iff s rawAsserted now).1 hf
    have hp := (pressEdge_iff s rawAsserted).1 h
    rw [h2.1] at hp
    exact absurd hp.2 (by simp)
  · intro s rawAsserted now h hmem
    have hf := (hold_mem_iff s rawAsserted now).1 hmem
    have h2 := (holdFires_iff s rawAsserted now).1 hf
    rw [h] at h2
    exact absurd h2.2.2.1 (by simp)

/-- Witness for C7: at a concrete press-edge tick and a concrete
release-edge tick the hold event is absent. -/
theorem edge_and_hold_exclusive_witness :
    ButtonEventKind.hold ∉
      (systemTick
        { sigma := 8, pressedFlag := false, holdTriggeredFlag := false,
          downStartTime := 0,
          eventConfiguration := MicroBitButtonEventConfiguration.allEvents }
        true 2000).2 ∧
    ButtonEventKind.hold ∉
      (systemTick
        { sigma := 2, pressedFlag := true, holdTriggeredFlag := false,
          downStartTime := 0,
          eventConfiguration := MicroBitButtonEventConfiguration.allEvents }
        false 2000).2 :=
  ⟨edge_and_hold_exclusive.2.1 _ true 2000 (by decide),
   edge_and_hold_exclusive.2.2 _ false 2000 (by decide)⟩

/-- Claim C2: on a threshold-consistent state (which every reachable
state is), the pressed flag goes false→true only when the updated
integrator crosses from ≤8 to >8, goes true→false only when it crosses
from ≥2 to <2, and never changes while the updated integrator lies in
the band [2, 8]. -/
theorem pressed_hysteresis (s : ButtonState) (rawAsserted : Bool) (now : Nat)
    (h : thresholdConsistent s) :
    (s.pressedFlag = false → (systemTick s rawAsserted now).1.pressedFlag = true →
        s.sigma ≤ MICROBIT_BUTTON_SIGMA_THRESH_HI ∧
        MICROBIT_BUTTON_SIGMA_THRESH_HI < (systemTick s rawAsserted now).1.sigma) ∧
    (s.pressedFlag = true → (systemTick s rawAsserted now).1.pressedFlag = false →
        MICROBIT_BUTTON_SIGMA_THRESH_LO ≤ s.sigma ∧
        (systemTick s rawAsserted now).1.sigma < MICROBIT_BUTTON_SIGMA_THRESH_LO) ∧
    (MICROBIT_BUTTON_SIGMA_THRESH_LO ≤ (systemTick s rawAsserted now).1.sigma →
        (systemTick s rawAsserted now).1.sigma ≤ MICROBIT_BUTTON_SIGMA_THRESH_HI →
        (systemTick s rawAsserted now).1.pressedFlag = s.pressedFlag) := by
  obtain ⟨hc1, hc2⟩ := h
  refine ⟨?_, ?_, ?_⟩
  · intro hpre hpost
    rw [systemTick_pressedFlag] at hpost
    rw [systemTick_sigma]
    by_cases hr : releaseEdge s rawAsserted = true
    · simp [pressedAfterUp, hr] at hpost
    · simp only [Bool.not_eq_true] at hr
      simp only [pressedAfterUp, hr, Bool.false_eq_true, if_false,
        pressedAfterDown] at hpost
      split at hpost
      · rename_i hp
        have h8 := ((pressEdge_iff s rawAsserted).1 hp).1
        refine ⟨?_, h8⟩
        by_contra hgt
        push_neg at hgt
        exact hc1 ⟨hgt, hpre⟩
      · rw [hpre] at hpost
        exact absurd hpost (by simp)
  · intro hpre hpost
    rw [systemTick_pressedFlag] at hpost
    rw [systemTick_sigma]
    by_cases hr : releaseEdge s rawAsserted = true
    · have h2 := ((releaseEdge_iff s rawAsserted).1 hr).1
      refine ⟨?_, h2⟩
      by_contra hlt
      push_neg at hlt
      exact hc2 ⟨hlt, hpre⟩
    · simp only [Bool.not_eq_true] at hr
      simp only [pressedAfterUp, hr, Bool.false_eq_true, if_false,
        pressedAfterDown] at hpost
      split at hpost
      · exact absurd hpost (by simp)
      · rw [hpre] at hpost
        exact absurd hpost (by simp)
  · intro hlo hhi
    rw [systemTick_sigma] at hlo hhi
    rw [systemTick_pressedFlag]
    have hp : pressEdge s rawAsserted = false := by
      cases hpe : pressEdge s rawAsserted
      · rfl
      · have h8 := ((pressEdge_iff s rawAsserted).1 hpe).1
        simp only [MICROBIT_BUTTON_SIGMA_THRESH_HI] at h8 hhi
        omega
    have hrel : releaseEdge s rawAsserted = false := by
      cases hre : releaseEdge s rawAsserted
      · rfl
      · have h2 := ((releaseEdge_iff s rawAsserted).1 hre).1
        simp only [MICROBIT_BUTTON_SIGMA_THRESH_LO] at h2 hlo
        omega
    simp [pressedAfterUp, hrel, pressedAfterDown, hp]

/-- Witness for C2: a tick that keeps the integrator inside the band
leaves the pressed flag unchanged. -/
theorem pressed_hysteresis_witness :
    (systemTick
      { sigma := 4, pressedFlag := false, holdTriggeredFlag := false,
        downStartTime := 0,
        eventConfiguration := MicroBitButtonEventConfiguration.allEvents }
      true 0).1.pressedFlag =
      ({ sigma := 4, pressedFlag := false, holdTriggeredFlag := false,
         downStartTime := 0,
         eventConfiguration := MicroBitButtonEventConfiguration.allEvents } :
        ButtonState).pressedFlag :=
  (pressed_hysteresis
    { sigma := 4, pressedFlag := false, holdTriggeredFlag := false,
      downStartTime := 0,
      eventConfiguration := MicroBitButtonEventConfiguration.allEvents }
    true 0 (by constructor <;> decide)).2.2 (by decide) (by decide)

/-- Claim C3: every tick emits exactly one `DOWN` iff it is a press edge
(updated integrator above 8 while the pressed flag was clear) and
exactly one `UP` iff it is a release edge (updated integrator below 2
while the pressed flag was set), both independent of the event
configuration, and a press edge records `downStartTime = now`. -/
theorem down_up_per_edge :
    (∀ (s : ButtonState) (rawAsserted : Bool) (now : Nat),
        (pressEdge s rawAsserted = true ↔
          MICROBIT_BUTTON_SIGMA_THRESH_HI < integrate s.sigma rawAsserted ∧
            s.pressedFlag = false) ∧
        (releaseEdge s rawAsserted = true ↔
          integrate s.sigma rawAsserted < MICROBIT_BUTTON_SIGMA_THRESH_LO ∧
            s.pressedFlag = true) ∧
        ((systemTick s rawAsserted now).2.count ButtonEventKind.down =
          if pressEdge s rawAsserted = true then 1 else 0) ∧
        ((systemTick s rawAsserted now).2.count ButtonEventKind.up =
          if releaseEdge s rawAsserted = true then 1 else 0)) ∧
    (∀ (s : ButtonState) (rawAsserted : Bool) (now : Nat),
        pressEdge s rawAsserted = true →
        (systemTick s rawAsserted now).1.downStartTime = now) := by
  constructor
  · intro s rawAsserted now
    refine ⟨pressEdge_iff s rawAsserted, releaseEdge_iff s rawAsserted, ?_, ?_⟩ <;>
      · rw [systemTick_events_eq]
        by_cases hp : pressEdge s rawAsserted = true <;>
        by_cases hr : releaseEdge s rawAsserted = true <;>
        by_cases hh : holdFires s rawAsserted now = true <;>
        by_cases hc : s.eventConfiguration =
          MicroBitButtonEventConfiguration.allEvents <;>
        by_cases ht : MICROBIT_BUTTON_LONG_CLICK_TIME ≤
          usub now (startAfterDown s rawAsserted now) <;>
        simp [hp, hr, hh, hc, ht, releaseEvents, List.count_append, List.count_cons]
  · intro s rawAsserted now h
    rw [systemTick_start]
    simp [startAfterDown, h]

/-- Witness for C3: the press edge at the concrete state with the
integrator at 8 stamps the tick time. -/
theorem down_up_per_edge_witness :
    (systemTick
      { sigma := 8, pressedFlag := false, holdTriggeredFlag := false,
        downStartTime := 0,
        eventConfiguration := MicroBitButtonEventConfiguration.simpleEvents }
      true 42).1.downStartTime = 42 :=
  down_up_per_edge.2 _ true 42 (by decide)

/-- Claim C4: on a release-edge tick, a `CLICK` or `LONG_CLICK` is
emitted iff the event configuration is `ALL_EVENTS`, and then exactly
one of the two: `LONG_CLICK` when `now - downStartTime >= 1000`,
otherwise `CLICK` (so exactly 1000 ms is a long click and 999 ms a
click, with no separate rule for longer presses). -/
theorem release_classification (s : ButtonState) (rawAsserted : Bool) (now : Nat)
    (hrel : releaseEdge s rawAsserted = true)
    (hmono : s.downStartTime ≤ now) (hbound : now < ULONG_CARD) :
    ((ButtonEventKind.click ∈ (systemTick s rawAsserted now).2 ∨
        ButtonEventKind.longClick ∈ (systemTick s rawAsserted now).2) ↔
      s.eventConfiguration = MicroBitButtonEventConfiguration.allEvents) ∧
    ((systemTick s rawAsserted now).2.count ButtonEventKind.longClick =
      if s.eventConfiguration = MicroBitButtonEventConfiguration.allEvents ∧
          MICROBIT_BUTTON_LONG_CLICK_TIME ≤ now - s.downStartTime
      then 1 else 0) ∧
    ((systemTick s rawAsserted now).2.count ButtonEventKind.click =
      if s.eventConfiguration = MicroBitButtonEventConfiguration.allEvents ∧
          now - s.downStartTime < MICROBIT_BUTTON_LONG_CLICK_TIME
      then 1 else 0) := by
  have hp := releaseEdge_pressEdge_false s rawAsserted hrel
  have hstart : startAfterDown s rawAsserted now = s.downStartTime := by
    simp [startAfterDown, hp]
  have hhold : holdFires s rawAsserted now = false := by
    cases hf : holdFires s rawAsserted now
    · rfl
    · have h2 := (holdFires_iff s rawAsserted now).1 hf
      rw [hrel] at h2
      exact absurd h2.2.2.1 (by simp)
  have husub : usub now s.downStartTime = now - s.downStartTime :=
    usub_eq_sub now s.downStartTime hmono hbound
  have hev : (systemTick s rawAsserted now).2 = releaseEvents s rawAsserted now := by
    rw [systemTick_events_eq, hp, hrel, hhold]
    simp
  rw [hev]
  simp only [releaseEvents, hstart, husub]
  by_cases hc : s.eventConfiguration = MicroBitButtonEventConfiguration.allEvents <;>
  by_cases ht : MICROBIT_BUTTON_LONG_CLICK_TIME ≤ now - s.downStartTime <;>
  simp [hc, ht, List.count_cons] <;>
  first
  | omega
  | (split_ifs <;> omega)

/-- Witness for C4: a press held exactly 1000 ms yields one `LONG_CLICK`
and no `CLICK`. -/
theorem release_classification_witness :
    ((systemTick
      { sigma := 2, pressedFlag := true, holdTriggeredFlag := false,
        downStartTime := 0,
        eventConfiguration := MicroBitButtonEventConfiguration.allEvents }
      false 1000).2.count ButtonEventKind.longClick =
      if ({ sigma := 2, pressedFlag := true, holdTriggeredFlag := false,
            downStartTime := 0,
            eventConfiguration := MicroBitButtonEventConfiguration.allEvents } :
          ButtonState).eventConfiguration =
            MicroBitButtonEventConfiguration.allEvents ∧
          MICROBIT_BUTTON_LONG_CLICK_TIME ≤ 1000 -
            ({ sigma := 2, pressedFlag := true, holdTriggeredFlag := false,
               downStartTime := 0,
               eventConfiguration := MicroBitButtonEventConfiguration.allEvents } :
             ButtonState).downStartTime
      then 1 else 0) :=
  (release_classification _ false 1000 (by decide) (by decide) (by decide)).2.1

theorem noHold_while_triggered (inputs : List (Bool × Nat)) :
    ∀ s : ButtonState, s.pressedFlag = true → s.holdTriggeredFlag = true →
      noHoldBeforeUp (run s inputs).2 = true := by
  induction inputs with
  | nil =>
      intro s h1 h2
      simp [run, noHoldBeforeUp]
  | cons x rest ih =>
      intro s h1 h2
      obtain ⟨rawAsserted, now⟩ := x
      rw [run_cons]
      show noHoldBeforeUp ((systemTick s rawAsserted now).2 ++
        (run (systemTick s rawAsserted now).1 rest).2) = true
      have hp : pressEdge s rawAsserted = false := by
        cases hpe : pressEdge s rawAsserted
        · rfl
        · have h3 := ((pressEdge_iff s rawAsserted).1 hpe).2
          rw [h1] at h3
          exact absurd h3 (by simp)
      have hhold : holdFires s rawAsserted now = false := by
        cases hf : holdFires s rawAsserted now
        · rfl
        · have h3 := (holdFires_iff s rawAsserted now).1 hf
          rw [h2] at h3
          exact absurd h3.2.1 (by simp)
      by_cases hr : releaseEdge s rawAsserted = true
      · have hev : (systemTick s rawAsserted now).2 = releaseEvents s rawAsserted now := by
          rw [systemTick_events_eq, hp, hr, hhold]
          simp
        rw [hev]
        simp only [releaseEvents, List.cons_append]
        simp [noHoldBeforeUp]
      · simp only [Bool.not_eq_true] at hr
        have hev : (systemTick s rawAsserted now).2 = [] := by
          rw [systemTick_events_eq, hp, hr, hhold]
          simp
        rw [hev, List.nil_append]
        refine ih (systemTick s rawAsserted now).1 ?_ ?_
        · rw [systemTick_pressedFlag]
          simp [pressedAfterUp, hr, pressedAfterDown, hp, h1]
        · rw [systemTick_holdFlag]
          simp [hhold, holdAfterUp, hr, h2]

/-- Claim C5: a `HOLD` is emitted on a tick iff the button was pressed
with the hold not yet triggered, the tick is not a release edge, and
`now - downStartTime >= 1500` — with no reference to the event
configuration; the tick sets `holdTriggered`; a release edge clears
`pressed` and `holdTriggered` together; and once `holdTriggered` is set
no further `HOLD` is emitted before the next `UP`. -/
theorem hold_once_per_press :
    (∀ (s : ButtonState) (rawAsserted : Bool) (now : Nat),
        s.downStartTime ≤ now → now < ULONG_CARD →
        (ButtonEventKind.hold ∈ (systemTick s rawAsserted now).2 ↔
          s.pressedFlag = true ∧ s.holdTriggeredFlag = false ∧
            releaseEdge s rawAsserted = false ∧
            MICROBIT_BUTTON_HOLD_TIME ≤ now - s.downStartTime)) ∧
    (∀ (s : ButtonState) (rawAsserted : Bool) (now : Nat),
        ButtonEventKind.hold ∈ (systemTick s rawAsserted now).2 →
        (systemTick s rawAsserted now).1.holdTriggeredFlag = true) ∧
    (∀ (s : ButtonState) (rawAsserted : Bool) (now : Nat),
        releaseEdge s rawAsserted = true →
        (systemTick s rawAsserted now).1.pressedFlag = false ∧
        (systemTick s rawAsserted now).1.holdTriggeredFlag = false) ∧
    (∀ (s : ButtonState) (inputs : List (Bool × Nat)),
        s.pressedFlag = true → s.holdTriggeredFlag = true →
        noHoldBeforeUp (run s inputs).2 = true) := by
  refine ⟨?_, ?_, ?_, fun s inputs h1 h2 => noHold_while_triggered inputs s h1 h2⟩
  · intro s rawAsserted now hmono hbound
    rw [hold_mem_iff, holdFires_iff, usub_eq_sub now s.downStartTime hmono hbound]
  · intro s rawAsserted now hmem
    have hf := (hold_mem_iff s rawAsserted now).1 hmem
    rw [systemTick_holdFlag]
    simp [hf]
  · intro s rawAsserted now hrel
    have hhold : holdFires s rawAsserted now = false := by
      cases hf : holdFires s rawAsserted now
      · rfl
      · have h2 := (holdFires_iff s rawAsserted now).1 hf
        rw [hrel] at h2
        exact absurd h2.2.2.1 (by simp)
    rw [systemTick_pressedFlag, systemTick_holdFlag]
    simp [pressedAfterUp, hrel, holdAfterUp, hhold]

/-- Witness for C5: the hold guard at 1500 ms elapsed on a pressed state,
and the once-per-press property on a concrete run. -/
theorem hold_once_per_press_witness :
    (ButtonEventKind.hold ∈
      (systemTick
        { sigma := 12, pressedFlag := true, holdTriggeredFlag := false,
          downStartTime := 0,
          eventConfiguration := MicroBitButtonEventConfiguration.allEvents }
        true 1500).2 ↔
      ({ sigma := 12, pressedFlag := true, holdTriggeredFlag := false,
         downStartTime := 0,
         eventConfiguration := MicroBitButtonEventConfiguration.allEvents } :
        ButtonState).pressedFlag = true ∧
      ({ sigma := 12, pressedFlag := true, holdTriggeredFlag := false,
         downStartTime := 0,
         eventConfiguration := MicroBitButtonEventConfiguration.allEvents } :
        ButtonState).holdTriggeredFlag = false ∧
      releaseEdge
        { sigma := 12, pressedFlag := true, holdTriggeredFlag := false,
          downStartTime := 0,
          eventConfiguration := MicroBitButtonEventConfiguration.allEvents }
        true = false ∧
      MICROBIT_BUTTON_HOLD_TIME ≤ 1500 -
        ({ sigma := 12, pressedFlag := true, holdTriggeredFlag := false,
           downStartTime := 0,
           eventConfiguration := MicroBitButtonEventConfiguration.allEvents } :
          ButtonState).downStartTime) ∧
    noHoldBeforeUp
      (run
        { sigma := 12, pressedFlag := true, holdTriggeredFlag := true,
          downStartTime := 0,
          eventConfiguration := MicroBitButtonEventConfiguration.allEvents }
        [(false, 6)]).2 = true :=
  ⟨hold_once_per_press.1 _ true 1500 (by decide) (by decide),
   hold_once_per_press.2.2.2 _ [(false, 6)] (by decide) (by decide)⟩

/-- Counterexample to claim C6 as stated: in `SIMPLE_EVENTS` mode a
sufficiently long press still emits a `HOLD` event, because the hold
block of `systemTick` never consults the event configuration. -/
theorem simpleEvents_hold_leak :
    (initialButton MicroBitButtonEventConfiguration.simpleEvents).eventConfiguration =
      MicroBitButtonEventConfiguration.simpleEvents ∧
    ButtonEventKind.hold ∈
      (run (initialButton MicroBitButtonEventConfiguration.simpleEvents)
        heldInputs).2 := by
  exact ⟨rfl, by decide⟩

theorem releaseEvents_simple (s : ButtonState) (rawAsserted : Bool) (now : Nat)
    (hconfig : s.eventConfiguration = MicroBitButtonEventConfiguration.simpleEvents) :
    releaseEvents s rawAsserted now = [ButtonEventKind.up] := by
  simp [releaseEvents, hconfig]

/-- Claim C6 amended: while the event mode is `SIMPLE_EVENTS` every
emitted event is `DOWN`, `UP` or `HOLD` — `CLICK` and `LONG_CLICK` are
never emitted, but `HOLD` is not suppressed. -/
theorem simpleEvents_only_down_up_hold (inputs : List (Bool × Nat)) :
    ∀ s : ButtonState,
      s.eventConfiguration = MicroBitButtonEventConfiguration.simpleEvents →
      ∀ e ∈ (run s inputs).2,
        e = ButtonEventKind.down ∨ e = ButtonEventKind.up ∨
          e = ButtonEventKind.hold := by
  induction inputs with
  | nil =>
      intro s hconfig e he
      simp [run] at he
  | cons x rest ih =>
      intro s hconfig e he
      obtain ⟨rawAsserted, now⟩ := x
      rw [run_cons] at he
      have he2 : e ∈ (systemTick s rawAsserted now).2 ++
          (run (systemTick s rawAsserted now).1 rest).2 := he
      rcases List.mem_append.1 he2 with h | h
      · rw [systemTick_events_eq] at h
        rcases List.mem_append.1 h with h1 | h1
        · rcases List.mem_append.1 h1 with h2 | h2
          · split at h2
            · simp at h2
              exact Or.inl h2
            · simp at h2
          · split at h2
            · rw [releaseEvents_simple s rawAsserted now hconfig] at h2
              simp at h2
              exact Or.inr (Or.inl h2)
            · simp at h2
        · split at h1
          · simp at h1
            exact Or.inr (Or.inr h1)
          · simp at h1
      · exact ih (systemTick s rawAsserted now).1
          (by rw [systemTick_config]; exact hconfig) e h

/-- Witness for the amended C6 on a concrete simple-mode run containing a
`DOWN` event. -/
theorem simpleEvents_only_down_up_hold_witness :
    ButtonEventKind.down = ButtonEventKind.down ∨
      ButtonEventKind.down = ButtonEventKind.up ∨
      ButtonEventKind.down = ButtonEventKind.hold :=
  simpleEvents_only_down_up_hold heldInputs
    (initialButton MicroBitButtonEventConfiguration.simpleEvents) rfl
    ButtonEventKind.down (by decide)

/-- Claim C8: 20 asserted ticks then 20 deasserted ticks, 6 ms apart, in
`ALL_EVENTS` mode from the initial state produce exactly one `DOWN` on
the 9th tick, one `UP` followed by one `CLICK` on the 31st tick, and
nothing else (in particular no `HOLD`). -/
theorem canonical_scenario :
    runTrace (initialButton MicroBitButtonEventConfiguration.allEvents)
      scenarioInputs = scenarioExpected := by
  decide

end MicroBitDAL
